import Mathlib

/-!
Verification of the value-preserving literal library (headers
`include/gsi/val.h` and `include/vir/val.h`, test `tests/arithmetic.cpp`).

The development shallowly embeds the compile-time semantics of the two
headers.  Machine unsigned integers are natural numbers reduced mod `2 ^ 64`
(the width of `unsigned long long`); concrete integral types are described by
a width/signedness descriptor; floating-point types are described by a
significand-precision/exponent descriptor, with values drawn from an extended
type (finite rational, infinities, NaN) and an executable
round-to-nearest-even function.  Every consteval operation of the library
returns a `Res`: a value, the thrown `bad_value_preserving_cast`, or
undefined behaviour — the latter models operations (such as an out-of-range
floating-to-integer `static_cast`) that in constant evaluation terminate
compilation with a hard error rather than with the catchable exception.
-/

namespace ValLib

/-- Outcome of a consteval operation of the library: a produced value,
a thrown `bad_value_preserving_cast` (`err`), or undefined behaviour (`ub`),
which in constant evaluation is a hard diagnostic distinct from the
catchable exception. -/
inductive Res (α : Type) where
  | ok : α → Res α
  | err : Res α
  | ub : Res α
deriving DecidableEq, Repr

/-- Sequencing of consteval steps: an exception or undefined behaviour
propagates. -/
def Res.bind {α β : Type} : Res α → (α → Res β) → Res β
  | .ok a, f => f a
  | .err, _ => .err
  | .ub, _ => .ub

/-- Apply a total function to the produced value. -/
def Res.map {α β : Type} (f : α → β) : Res α → Res β
  | .ok a => .ok (f a)
  | .err => .err
  | .ub => .ub

/-- The modulus of `unsigned long long`: the headers store magnitudes at
exactly this width. -/
def W : ℕ := 2 ^ 64

/-- C++ unary minus on `unsigned long long`: modular negation. -/
def neg64 (n : ℕ) : ℕ := (W - n % W) % W

/-- `static_cast<unsigned long long>` applied to a value of an integral type
(twos-complement, C++20: reduction mod `2 ^ 64`). -/
def toU64 (z : ℤ) : ℕ := (z % (W : ℤ)).toNat

/-- Descriptor of a concrete C++ integral type: width in bits and
signedness.  Widths 1 to 64 cover `bool`, the character types, `short`,
`int`, `long`, `long long` and their unsigned versions on the platform the
headers target (`unsigned long long` is 64 bits wide). -/
structure IntType where
  bits : ℕ
  signed : Bool
  pos : 0 < bits
  le64 : bits ≤ 64

/-- `numeric_limits<T>::max()`. -/
def IntType.max (T : IntType) : ℤ :=
  if T.signed then 2 ^ (T.bits - 1) - 1 else 2 ^ T.bits - 1

/-- `numeric_limits<T>::lowest()`. -/
def IntType.lowest (T : IntType) : ℤ :=
  if T.signed then -(2 ^ (T.bits - 1)) else 0

/-- The quantity `-static_cast<unsigned long long>(L::lowest())` computed by
the integral conversion branch of the headers. -/
def IntType.negLowU64 (T : IntType) : ℕ := neg64 (toU64 T.lowest)

/-- `static_cast<T>` from `unsigned long long` (C++20): reduction mod
`2 ^ bits` followed by the signed reinterpretation.  (For `bool` the C++
cast collapses nonzero to one; the headers only apply this cast to values
that are in range for the target, where the two readings agree.) -/
def IntType.ofU64 (T : IntType) (n : ℕ) : ℤ :=
  let r := n % 2 ^ T.bits
  if T.signed ∧ 2 ^ (T.bits - 1) ≤ r then (r : ℤ) - 2 ^ T.bits else (r : ℤ)

/-- Conversion of a mathematical integer to the type `T` (C++20 modular
semantics): used for the implicit conversion that stores an arithmetic
result back into a `T` object. -/
def IntType.wrap (T : IntType) (z : ℤ) : ℤ := T.ofU64 ((z % (W : ℤ)).toNat)

def i8 : IntType := ⟨8, true, by decide, by decide⟩

def i16 : IntType := ⟨16, true, by decide, by decide⟩

def i32 : IntType := ⟨32, true, by decide, by decide⟩

def i64 : IntType := ⟨64, true, by decide, by decide⟩

def u8 : IntType := ⟨8, false, by decide, by decide⟩

def u16 : IntType := ⟨16, false, by decide, by decide⟩

def u32 : IntType := ⟨32, false, by decide, by decide⟩

def u64 : IntType := ⟨64, false, by decide, by decide⟩

/-- Round a rational half-to-even to an integer (the tie-breaking rule of
IEEE binary arithmetic). -/
def rhe (x : ℚ) : ℤ :=
  let f := ⌊x⌋
  if x - f < 1 / 2 then f
  else if 1 / 2 < x - f then f + 1
  else if 2 ∣ f then f else f + 1

/-- Descriptor of an IEEE binary floating-point format: number of
significand bits and exponent bound.  The bounds recorded in the structure
hold for the three formats the headers use (`float`, `double`, the 80-bit
`long double`); in particular every magnitude below `2 ^ 64` is finitely
representable after rounding. -/
structure FloatFmt where
  prec : ℕ
  emax : ℤ
  prec_pos : 0 < prec
  prec_le : prec ≤ 64
  emax_big : 65 ≤ emax

/-- Largest finite value of the format. -/
def FloatFmt.maxVal (F : FloatFmt) : ℚ :=
  ((2 ^ F.prec - 1 : ℤ) : ℚ) * 2 ^ (F.emax - F.prec)

/-- Floor of the base-two logarithm, by structural recursion on a fuel
argument so that the kernel can evaluate it on literals. -/
def log2Aux : ℕ → ℕ → ℕ
  | 0, _ => 0
  | f + 1, n => if n ≤ 1 then 0 else log2Aux f (n / 2) + 1

/-- Floor of the base-two logarithm of a natural number (zero on zero). -/
def nlog2 (n : ℕ) : ℕ := log2Aux n n

/-- The binary exponent of a positive rational `q`: the integer `e` with
`2 ^ e ≤ q < 2 ^ (e + 1)`.  The bit lengths of numerator and denominator
bracket the exponent within one, and a single comparison settles it. -/
def qlog (q : ℚ) : ℤ :=
  let e0 : ℤ := (nlog2 q.num.toNat : ℤ) - (nlog2 q.den : ℤ)
  if 2 ^ e0 ≤ q then e0 else e0 - 1

/-- Round a positive rational to the precision grid of the format,
nearest value with ties to even.  (Subnormal granularity is not modelled;
no operation of the headers exercised by the claims reaches it.) -/
def FloatFmt.roundPos (F : FloatFmt) (q : ℚ) : ℚ :=
  let e : ℤ := qlog q + 1
  let step : ℚ := 2 ^ (e - F.prec)
  (rhe (q / step) : ℚ) * step

/-- IEEE round-to-nearest-even of a rational into the format. -/
def FloatFmt.round (F : FloatFmt) (q : ℚ) : ℚ :=
  if q = 0 then 0
  else if 0 < q then F.roundPos q
  else -F.roundPos (-q)

/-- The `float` format (32-bit IEEE binary). -/
def f32 : FloatFmt := ⟨24, 128, by decide, by decide, by decide⟩

/-- The `double` format (64-bit IEEE binary). -/
def f64 : FloatFmt := ⟨53, 1024, by decide, by decide, by decide⟩

/-- The x87 `long double` format: 64 significand bits.  This is the
extended-precision representation stored inside `constreal`. -/
def ld80 : FloatFmt := ⟨64, 16384, by decide, by decide, by decide⟩

/-- A `long double` value: finite (a dyadic rational), an infinity, or NaN.
Signed zero is not modelled; no observable behaviour of the headers
distinguishes the two zeros. -/
inductive ExtFloat where
  | fin : ℚ → ExtFloat
  | posInf : ExtFloat
  | negInf : ExtFloat
  | nan : ExtFloat
deriving DecidableEq, Repr

/-- IEEE negation. -/
def ExtFloat.neg : ExtFloat → ExtFloat
  | .fin q => .fin (-q)
  | .posInf => .negInf
  | .negInf => .posInf
  | .nan => .nan

/-- IEEE comparison `x > c` against a finite bound (false on NaN). -/
def ExtFloat.gtQ : ExtFloat → ℚ → Bool
  | .fin q, c => decide (c < q)
  | .posInf, _ => true
  | .negInf, _ => false
  | .nan, _ => false

/-- IEEE comparison `x < c` against a finite bound (false on NaN). -/
def ExtFloat.ltQ : ExtFloat → ℚ → Bool
  | .fin q, c => decide (q < c)
  | .posInf, _ => false
  | .negInf, _ => true
  | .nan, _ => false

/-- IEEE equality (false whenever an operand is NaN). -/
def ExtFloat.ieeeEq : ExtFloat → ExtFloat → Bool
  | .fin p, .fin q => decide (p = q)
  | .posInf, .posInf => true
  | .negInf, .negInf => true
  | _, _ => false

/-- IEEE strict less-than (false whenever an operand is NaN). -/
def ExtFloat.ieeeLt : ExtFloat → ExtFloat → Bool
  | .nan, _ => false
  | _, .nan => false
  | .negInf, .negInf => false
  | .negInf, _ => true
  | _, .negInf => false
  | .posInf, _ => false
  | .fin _, .posInf => true
  | .fin p, .fin q => decide (p < q)

/-- Truncation toward zero: the value produced by a C++ floating-to-integer
`static_cast` when it is defined. -/
def ztrunc (q : ℚ) : ℤ := if q < 0 then ⌈q⌉ else ⌊q⌋

/-- IEEE addition in the format (the native `+` of the concrete floating
type).  Finite overflow to infinity is not modelled; no claim exercises
it. -/
def FloatFmt.addE (F : FloatFmt) : ExtFloat → ExtFloat → ExtFloat
  | .nan, _ => .nan
  | _, .nan => .nan
  | .posInf, .negInf => .nan
  | .negInf, .posInf => .nan
  | .posInf, _ => .posInf
  | _, .posInf => .posInf
  | .negInf, _ => .negInf
  | _, .negInf => .negInf
  | .fin p, .fin q => .fin (F.round (p + q))

/-- IEEE subtraction: addition of the negated operand. -/
def FloatFmt.subE (F : FloatFmt) (x y : ExtFloat) : ExtFloat :=
  F.addE x y.neg

/-- IEEE multiplication in the format. -/
def FloatFmt.mulE (F : FloatFmt) : ExtFloat → ExtFloat → ExtFloat
  | .nan, _ => .nan
  | _, .nan => .nan
  | .posInf, .posInf => .posInf
  | .posInf, .negInf => .negInf
  | .negInf, .posInf => .negInf
  | .negInf, .negInf => .posInf
  | .posInf, .fin q => if q = 0 then .nan else if q < 0 then .negInf else .posInf
  | .fin q, .posInf => if q = 0 then .nan else if q < 0 then .negInf else .posInf
  | .negInf, .fin q => if q = 0 then .nan else if q < 0 then .posInf else .negInf
  | .fin q, .negInf => if q = 0 then .nan else if q < 0 then .posInf else .negInf
  | .fin p, .fin q => .fin (F.round (p * q))

/-- IEEE division in the format. -/
def FloatFmt.divE (F : FloatFmt) : ExtFloat → ExtFloat → ExtFloat
  | .nan, _ => .nan
  | _, .nan => .nan
  | .posInf, .posInf => .nan
  | .posInf, .negInf => .nan
  | .negInf, .posInf => .nan
  | .negInf, .negInf => .nan
  | .posInf, .fin q => if q < 0 then .negInf else .posInf
  | .negInf, .fin q => if q < 0 then .posInf else .negInf
  | .fin _, .posInf => .fin 0
  | .fin _, .negInf => .fin 0
  | .fin p, .fin q =>
      if q = 0 then (if p = 0 then .nan else if p < 0 then .negInf else .posInf)
      else .fin (F.round (p / q))

/-- The four operators instantiated for every arithmetic concrete type
(`+ - * /` in the operator macro of the headers). -/
inductive Op4 where
  | add | sub | mul | div
deriving DecidableEq, Repr

/-- The eight operators instantiated for integral concrete types
(`+ - * / % & | ^` in the operator macro of the headers). -/
inductive Op8 where
  | add | sub | mul | div | mod | band | bor | bxor
deriving DecidableEq, Repr

/-- The six comparison operators of the comparison macro. -/
inductive CmpOp where
  | eq | ne | le | ge | lt | gt
deriving DecidableEq, Repr

/-- Integer promotion: types narrower than `int` promote to `int` before
built-in arithmetic. -/
def IntType.promoted (T : IntType) : IntType :=
  if T.bits < 32 then i32 else T

/-- Result of a built-in arithmetic computation carried out in the type `C`:
signed overflow is undefined behaviour, unsigned arithmetic wraps. -/
def IntType.arithResult (C : IntType) (z : ℤ) : Res ℤ :=
  if C.signed then
    (if C.lowest ≤ z ∧ z ≤ C.max then .ok z else .ub)
  else .ok (z % (2 ^ C.bits : ℤ))

/-- Bit pattern of a value of type `C` (twos-complement). -/
def IntType.toBits (C : IntType) (z : ℤ) : ℕ := (z % (2 ^ C.bits : ℤ)).toNat

/-- The native C++ binary operator `a op b` on two values of the integral
type `T`: operands promote, the operation is carried out in the promoted
type (division and remainder truncate toward zero; a zero divisor or an
unrepresentable quotient is undefined behaviour; the bitwise operators act
on the twos-complement bit patterns), and the result is converted back to
`T` (modular, C++20).  Used by the binary and compound-assignment operator
overloads of the headers. -/
def IntType.natBin (T : IntType) (op : Op8) (a b : ℤ) : Res ℤ :=
  let C := T.promoted
  let r : Res ℤ :=
    match op with
    | .add => C.arithResult (a + b)
    | .sub => C.arithResult (a - b)
    | .mul => C.arithResult (a * b)
    | .div => if b = 0 then .ub else C.arithResult (Int.tdiv a b)
    | .mod =>
        if b = 0 then .ub
        else if C.signed ∧ ¬(C.lowest ≤ Int.tdiv a b ∧ Int.tdiv a b ≤ C.max)
        then .ub
        else .ok (Int.tmod a b)
    | .band => .ok (C.ofU64 (Nat.land (C.toBits a) (C.toBits b)))
    | .bor => .ok (C.ofU64 (Nat.lor (C.toBits a) (C.toBits b)))
    | .bxor => .ok (C.ofU64 (Nat.xor (C.toBits a) (C.toBits b)))
  r.map T.wrap

/-- The native C++ binary operator on two values of the floating format
`F`. -/
def FloatFmt.natBinF (F : FloatFmt) (op : Op4) (x y : ExtFloat) : ExtFloat :=
  match op with
  | .add => F.addE x y
  | .sub => F.subE x y
  | .mul => F.mulE x y
  | .div => F.divE x y

/-- Evaluate a comparison operator on two integral values. -/
def cmpZ (op : CmpOp) (a b : ℤ) : Bool :=
  match op with
  | .eq => decide (a = b)
  | .ne => decide (a ≠ b)
  | .le => decide (a ≤ b)
  | .ge => decide (b ≤ a)
  | .lt => decide (a < b)
  | .gt => decide (b < a)

/-- Evaluate a comparison operator on two floating values with IEEE NaN
semantics (every comparison with NaN is false except `!=`). -/
def cmpE (op : CmpOp) (x y : ExtFloat) : Bool :=
  match op with
  | .eq => x.ieeeEq y
  | .ne => !x.ieeeEq y
  | .le => x.ieeeLt y || x.ieeeEq y
  | .ge => y.ieeeLt x || x.ieeeEq y
  | .lt => x.ieeeLt y
  | .gt => y.ieeeLt x

/-- The integer literal type of both headers: an `unsigned long long`
magnitude plus a sign flag (struct `constinteger`; both headers declare the
identical structure, modelled once). -/
structure constinteger where
  value : ℕ
  negative : Bool
deriving DecidableEq, Repr

/-- The real literal type of both headers: a `long double` value (struct
`constreal`; both headers declare the identical structure, modelled
once). -/
structure constreal where
  value : ExtFloat
deriving DecidableEq, Repr

/-- A literal operand of the operator mixin: the `_ConvertTo` wrapper is
constructible from either literal type. -/
inductive Lit where
  | ci : constinteger → Lit
  | cr : constreal → Lit
deriving DecidableEq, Repr

namespace gsi

/-- `operator-(constinteger)` (gsi/val.h lines 136-138): flip the sign
flag, keep the magnitude. -/
def cintNeg (v : constinteger) : constinteger :=
  ⟨v.value, !v.negative⟩

/-- `operator+(constinteger)` (gsi/val.h lines 140-142): identity. -/
def cintPlus (v : constinteger) : constinteger := v

/-- `operator""_val(unsigned long long)` (gsi/val.h lines 173-175): store
the magnitude, sign flag defaulted to false.  The argument is an
`unsigned long long`, hence below `2 ^ 64`. -/
def udlInt (n : ℕ) : constinteger := ⟨n, false⟩

/-- `val(unsigned_integral auto)` (gsi/val.h lines 177-179). -/
def valU (n : ℕ) : constinteger := ⟨n, false⟩

/-- `val(signed_integral auto)` (gsi/val.h lines 181-188): nonnegative
arguments are stored directly; a negative argument stores the magnitude
obtained by unsigned negation of the `unsigned long long` conversion of the
argument, with the sign flag set. -/
def valS (z : ℤ) : constinteger :=
  if 0 ≤ z then ⟨z.toNat, false⟩
  else ⟨neg64 (toU64 z), true⟩

/-- `operator-(constreal)` (gsi/val.h lines 194-196). -/
def crealNeg (v : constreal) : constreal := ⟨v.value.neg⟩

/-- `operator+(constreal)` (gsi/val.h lines 198-200): identity. -/
def crealPlus (v : constreal) : constreal := v

/-- `operator""_val(long double)` (gsi/val.h lines 221-223). -/
def udlReal (v : ExtFloat) : constreal := ⟨v⟩

/-- `val(long double)` (gsi/val.h lines 225-227). -/
def valR (v : ExtFloat) : constreal := ⟨v⟩

/-- `constinteger::operator _Up()` for integral `_Up` (gsi/val.h lines
163-169): throw `bad_value_preserving_cast` when the magnitude exceeds the
bound for the sign, otherwise cast the (possibly negated) magnitude. -/
def convertIntToIntegral (T : IntType) (x : constinteger) : Res ℤ :=
  if (x.negative && decide (T.negLowU64 < x.value))
      || (!x.negative && decide (T.max < (x.value : ℤ))) then .err
  else .ok (T.ofU64 (if x.negative then neg64 x.value else x.value))

/-- `constinteger::operator _Up()` for floating-point `_Up` (gsi/val.h
lines 156-162): cast the magnitude to the format, cast the result back to
`unsigned long long` and require equality with the magnitude; then apply
the sign.  The back-cast is undefined behaviour — a hard constant-evaluation
error, not the catchable exception — when the truncated candidate is
outside `[0, 2 ^ 64)`. -/
def convertIntToFloat (F : FloatFmt) (x : constinteger) : Res ExtFloat :=
  let c : ℚ := F.round (x.value : ℚ)
  let t : ℤ := ztrunc c
  if t < 0 ∨ (W : ℤ) ≤ t then .ub
  else if t ≠ (x.value : ℤ) then .err
  else .ok (.fin (if x.negative then -c else c))

/-- `constreal::operator _Up()` for integral `_Up` (gsi/val.h lines
208-218): the two IEEE range comparisons are false for NaN, after which
`static_cast<_Up>` of NaN is undefined behaviour; an infinity fails the
range check; a finite value is range-checked, truncated, cast back to
`long double` and compared exactly. -/
def convertRealToIntegral (T : IntType) (x : constreal) : Res ℤ :=
  match x.value with
  | .nan => .ub
  | .posInf => .err
  | .negInf => .err
  | .fin q =>
      if (T.max : ℚ) < q ∨ q < (T.lowest : ℚ) then .err
      else
        let t := ztrunc q
        if ld80.round (t : ℚ) ≠ q then .err else .ok t

/-- `constreal::operator _Up()` for floating-point `_Up` (gsi/val.h lines
208-218): range check against the target limits (false for NaN, failing
for infinities), then cast to the target format, cast back to `long
double` and compare exactly — a comparison that is true for NaN (IEEE
`!=`), so NaN reaches the throw. -/
def convertRealToFloat (F : FloatFmt) (x : constreal) : Res ExtFloat :=
  match x.value with
  | .nan => .err
  | .posInf => .err
  | .negInf => .err
  | .fin q =>
      if F.maxVal < q ∨ q < -F.maxVal then .err
      else
        let c := F.round q
        if ld80.round c ≠ q then .err else .ok (.fin c)

/-- Construction of `_ConvertTo<T>` for integral `T` (gsi/val.h lines
66-80): the wrapper has one converting constructor from each literal type,
each performing the checked conversion. -/
def convertToI (T : IntType) : Lit → Res ℤ
  | .ci x => convertIntToIntegral T x
  | .cr x => convertRealToIntegral T x

/-- Construction of `_ConvertTo<T>` for floating-point `T` (gsi/val.h
lines 66-80). -/
def convertToF (F : FloatFmt) : Lit → Res ExtFloat
  | .ci x => convertIntToFloat F x
  | .cr x => convertRealToFloat F x

/-- The compound-assignment overload `operator op=(T, _ConvertTo)` for
integral `T` produced by the operator macro (gsi/val.h lines 82-105).  The
macro body is `__a += __b._M_value` for every instantiated operator, so the
`op` parameter selects the operator name only; the computation applied is
always the native `+=`. -/
def opAssignI (op : Op8) (T : IntType) (a : ℤ) (b : Lit) : Res ℤ :=
  (convertToI T b).bind fun v => T.natBin .add a v

/-- The binary overload `operator op(T, _ConvertTo)` for integral `T`
(gsi/val.h lines 88-91): checked conversion, then the native operator. -/
def opBinRI (op : Op8) (T : IntType) (a : ℤ) (b : Lit) : Res ℤ :=
  (convertToI T b).bind fun v => T.natBin op a v

/-- The binary overload `operator op(_ConvertTo, T)` for integral `T`
(gsi/val.h lines 93-96). -/
def opBinLI (op : Op8) (T : IntType) (b : Lit) (a : ℤ) : Res ℤ :=
  (convertToI T b).bind fun v => T.natBin op v a

/-- The compound-assignment overload for floating-point `T` (gsi/val.h
lines 82-101): as in the integral case the macro body applies the native
`+=` whatever the operator name. -/
def opAssignF (op : Op4) (F : FloatFmt) (a : ExtFloat) (b : Lit) : Res ExtFloat :=
  (convertToF F b).map fun v => F.natBinF .add a v

/-- The binary overload `operator op(T, _ConvertTo)` for floating-point
`T` (gsi/val.h lines 88-91). -/
def opBinRF (op : Op4) (F : FloatFmt) (a : ExtFloat) (b : Lit) : Res ExtFloat :=
  (convertToF F b).map fun v => F.natBinF op a v

/-- The binary overload `operator op(_ConvertTo, T)` for floating-point
`T` (gsi/val.h lines 93-96). -/
def opBinLF (op : Op4) (F : FloatFmt) (b : Lit) (a : ExtFloat) : Res ExtFloat :=
  (convertToF F b).map fun v => F.natBinF op v a

/-- The comparison overload `operator op(T, _ConvertTo)` for integral `T`
(gsi/val.h lines 109-127). -/
def opCmpRI (op : CmpOp) (T : IntType) (a : ℤ) (b : Lit) : Res Bool :=
  (convertToI T b).map fun v => cmpZ op a v

/-- The comparison overload `operator op(_ConvertTo, T)` for integral `T`
(gsi/val.h lines 115-118). -/
def opCmpLI (op : CmpOp) (T : IntType) (b : Lit) (a : ℤ) : Res Bool :=
  (convertToI T b).map fun v => cmpZ op v a

/-- The comparison overload `operator op(T, _ConvertTo)` for
floating-point `T` (gsi/val.h lines 109-127). -/
def opCmpRF (op : CmpOp) (F : FloatFmt) (a : ExtFloat) (b : Lit) : Res Bool :=
  (convertToF F b).map fun v => cmpE op a v

/-- The comparison overload `operator op(_ConvertTo, T)` for
floating-point `T` (gsi/val.h lines 115-118). -/
def opCmpLF (op : CmpOp) (F : FloatFmt) (b : Lit) (a : ExtFloat) : Res Bool :=
  (convertToF F b).map fun v => cmpE op v a

end gsi

namespace vir

/-- `operator-(constinteger)` (vir/val.h lines 240-242). -/
def cintNeg (v : constinteger) : constinteger :=
  ⟨v.value, !v.negative⟩

/-- `operator+(constinteger)` (vir/val.h lines 249-251). -/
def cintPlus (v : constinteger) : constinteger := v

/-- `operator""_val(unsigned long long)` (vir/val.h lines 311-313). -/
def udlInt (n : ℕ) : constinteger := ⟨n, false⟩

/-- `val(unsigned_integral auto)` (vir/val.h lines 321-323). -/
def valU (n : ℕ) : constinteger := ⟨n, false⟩

/-- `val(signed_integral auto)` (vir/val.h lines 331-338). -/
def valS (z : ℤ) : constinteger :=
  if 0 ≤ z then ⟨z.toNat, false⟩
  else ⟨neg64 (toU64 z), true⟩

/-- `operator-(constreal)` (vir/val.h lines 359-361). -/
def crealNeg (v : constreal) : constreal := ⟨v.value.neg⟩

/-- `operator+(constreal)` (vir/val.h lines 368-370). -/
def crealPlus (v : constreal) : constreal := v

/-- `operator""_val(long double)` (vir/val.h lines 412-414). -/
def udlReal (v : ExtFloat) : constreal := ⟨v⟩

/-- `val(long double)` (vir/val.h lines 422-424). -/
def valR (v : ExtFloat) : constreal := ⟨v⟩

/-- `constinteger::operator _Up()` for integral `_Up` (vir/val.h lines
293-299). -/
def convertIntToIntegral (T : IntType) (x : constinteger) : Res ℤ :=
  if (x.negative && decide (T.negLowU64 < x.value))
      || (!x.negative && decide (T.max < (x.value : ℤ))) then .err
  else .ok (T.ofU64 (if x.negative then neg64 x.value else x.value))

/-- `constinteger::operator _Up()` for floating-point `_Up` (vir/val.h
lines 286-292). -/
def convertIntToFloat (F : FloatFmt) (x : constinteger) : Res ExtFloat :=
  let c : ℚ := F.round (x.value : ℚ)
  let t : ℤ := ztrunc c
  if t < 0 ∨ (W : ℤ) ≤ t then .ub
  else if t ≠ (x.value : ℤ) then .err
  else .ok (.fin (if x.negative then -c else c))

/-- `constreal::operator _Up()` for integral `_Up` (vir/val.h lines
391-401). -/
def convertRealToIntegral (T : IntType) (x : constreal) : Res ℤ :=
  match x.value with
  | .nan => .ub
  | .posInf => .err
  | .negInf => .err
  | .fin q =>
      if (T.max : ℚ) < q ∨ q < (T.lowest : ℚ) then .err
      else
        let t := ztrunc q
        if ld80.round (t : ℚ) ≠ q then .err else .ok t

/-- `constreal::operator _Up()` for floating-point `_Up` (vir/val.h lines
391-401). -/
def convertRealToFloat (F : FloatFmt) (x : constreal) : Res ExtFloat :=
  match x.value with
  | .nan => .err
  | .posInf => .err
  | .negInf => .err
  | .fin q =>
      if F.maxVal < q ∨ q < -F.maxVal then .err
      else
        let c := F.round q
        if ld80.round c ≠ q then .err else .ok (.fin c)

/-- Construction of `_ConvertTo<T>` for integral `T` (vir/val.h lines
142-162). -/
def convertToI (T : IntType) : Lit → Res ℤ
  | .ci x => convertIntToIntegral T x
  | .cr x => convertRealToIntegral T x

/-- Construction of `_ConvertTo<T>` for floating-point `T` (vir/val.h
lines 142-162). -/
def convertToF (F : FloatFmt) : Lit → Res ExtFloat
  | .ci x => convertIntToFloat F x
  | .cr x => convertRealToFloat F x

/-- The compound-assignment overload for integral `T` (vir/val.h lines
167-192): as in the gsi copy, the macro body applies the native `+=` for
every instantiated operator. -/
def opAssignI (op : Op8) (T : IntType) (a : ℤ) (b : Lit) : Res ℤ :=
  (convertToI T b).bind fun v => T.natBin .add a v

/-- The binary overload `operator op(T, _ConvertTo)` for integral `T`
(vir/val.h lines 173-176). -/
def opBinRI (op : Op8) (T : IntType) (a : ℤ) (b : Lit) : Res ℤ :=
  (convertToI T b).bind fun v => T.natBin op a v

/-- The binary overload `operator op(_ConvertTo, T)` for integral `T`
(vir/val.h lines 178-181). -/
def opBinLI (op : Op8) (T : IntType) (b : Lit) (a : ℤ) : Res ℤ :=
  (convertToI T b).bind fun v => T.natBin op v a

/-- The compound-assignment overload for floating-point `T` (vir/val.h
lines 167-186). -/
def opAssignF (op : Op4) (F : FloatFmt) (a : ExtFloat) (b : Lit) : Res ExtFloat :=
  (convertToF F b).map fun v => F.natBinF .add a v

/-- The binary overload `operator op(T, _ConvertTo)` for floating-point
`T` (vir/val.h lines 173-176). -/
def opBinRF (op : Op4) (F : FloatFmt) (a : ExtFloat) (b : Lit) : Res ExtFloat :=
  (convertToF F b).map fun v => F.natBinF op a v

/-- The binary overload `operator op(_ConvertTo, T)` for floating-point
`T` (vir/val.h lines 178-181). -/
def opBinLF (op : Op4) (F : FloatFmt) (b : Lit) (a : ExtFloat) : Res ExtFloat :=
  (convertToF F b).map fun v => F.natBinF op v a

/-- The comparison overload `operator op(T, _ConvertTo)` for integral `T`
(vir/val.h lines 197-215). -/
def opCmpRI (op : CmpOp) (T : IntType) (a : ℤ) (b : Lit) : Res Bool :=
  (convertToI T b).map fun v => cmpZ op a v

/-- The comparison overload `operator op(_ConvertTo, T)` for integral `T`
(vir/val.h lines 203-206). -/
def opCmpLI (op : CmpOp) (T : IntType) (b : Lit) (a : ℤ) : Res Bool :=
  (convertToI T b).map fun v => cmpZ op v a

/-- The comparison overload `operator op(T, _ConvertTo)` for
floating-point `T` (vir/val.h lines 197-215). -/
def opCmpRF (op : CmpOp) (F : FloatFmt) (a : ExtFloat) (b : Lit) : Res Bool :=
  (convertToF F b).map fun v => cmpE op a v

/-- The comparison overload `operator op(_ConvertTo, T)` for
floating-point `T` (vir/val.h lines 203-206). -/
def opCmpLF (op : CmpOp) (F : FloatFmt) (b : Lit) (a : ExtFloat) : Res Bool :=
  (convertToF F b).map fun v => cmpE op v a

end vir

/-! ## Helper lemmas -/

set_option maxRecDepth 200000

/-- The quantity `-(unsigned long long)(L::lowest())` equals the magnitude
of the minimum value of the type: `2 ^ (bits - 1)` for signed types, zero
for unsigned ones. -/
theorem IntType.negLowU64_eq (T : IntType) :
    T.negLowU64 = if T.signed then 2 ^ (T.bits - 1) else 0 := by
  have hb := T.le64
  have hx2 : (2:ℕ) ^ (T.bits - 1) ≤ 2 ^ 63 :=
    Nat.pow_le_pow_right (by norm_num) (by omega)
  have hx1 : 1 ≤ (2:ℕ) ^ (T.bits - 1) := Nat.one_le_two_pow
  unfold IntType.negLowU64 toU64 IntType.lowest neg64 W
  cases hs : T.signed with
  | false => simp
  | true =>
      simp only [if_true]
      have hzx : (2:ℤ) ^ (T.bits - 1) = ((2 ^ (T.bits - 1) : ℕ) : ℤ) := by
        push_cast
        ring
      rw [hzx]
      generalize (2 ^ (T.bits - 1) : ℕ) = x at hx1 hx2 ⊢
      have h64 : (2:ℕ) ^ 64 = 18446744073709551616 := by norm_num
      rw [h64]
      omega

/-- `static_cast<T>` of an `unsigned long long` value not exceeding the
maximum of `T` is the identity. -/
theorem IntType.ofU64_of_le_max (T : IntType) (m : ℕ) (h : (m : ℤ) ≤ T.max) :
    T.ofU64 m = (m : ℤ) := by
  have hbp : (2:ℕ) ^ (T.bits - 1) ≤ 2 ^ T.bits :=
    Nat.pow_le_pow_right (by norm_num) (by omega)
  have hcast : ((2 ^ (T.bits - 1) : ℕ) : ℤ) = (2:ℤ) ^ (T.bits - 1) := by
    push_cast
    ring
  have hcastb : ((2 ^ T.bits : ℕ) : ℤ) = (2:ℤ) ^ T.bits := by
    push_cast
    ring
  unfold IntType.max at h
  simp only [IntType.ofU64]
  cases hs : T.signed with
  | false =>
      rw [hs] at h
      rw [if_neg (by simp)] at h
      have hm : m < 2 ^ T.bits := by omega
      rw [Nat.mod_eq_of_lt hm, if_neg (by simp)]
  | true =>
      rw [hs] at h
      rw [if_pos rfl] at h
      have hm1 : m < 2 ^ (T.bits - 1) := by omega
      have hm : m < 2 ^ T.bits := lt_of_lt_of_le hm1 hbp
      rw [Nat.mod_eq_of_lt hm, if_neg]
      rintro ⟨-, hge⟩
      omega

/-- `static_cast<T>` of the unsigned negation of a magnitude not exceeding
the magnitude of the minimum of `T` yields the negated magnitude. -/
theorem IntType.ofU64_neg64 (T : IntType) (m : ℕ) (h : m ≤ T.negLowU64) :
    T.ofU64 (neg64 m) = -(m : ℤ) := by
  have hb := T.le64
  have hbpos := T.pos
  rw [T.negLowU64_eq] at h
  have hsplit : T.bits - 1 + 1 = T.bits := by omega
  have h2p : (2:ℕ) ^ T.bits = 2 * 2 ^ (T.bits - 1) := by
    calc (2:ℕ) ^ T.bits = 2 ^ (T.bits - 1 + 1) := by rw [hsplit]
    _ = 2 ^ (T.bits - 1) * 2 := pow_succ 2 (T.bits - 1)
    _ = 2 * 2 ^ (T.bits - 1) := by ring
  have hple : (2:ℕ) ^ (T.bits - 1) ≤ 2 ^ 63 :=
    Nat.pow_le_pow_right (by norm_num) (by omega)
  have hneg0 : neg64 0 = 0 := by
    unfold neg64 W
    norm_num
  have hppos : 0 < (2:ℕ) ^ (T.bits - 1) := pow_pos (by norm_num) _
  cases hs : T.signed with
  | false =>
      rw [hs] at h
      rw [if_neg (by simp)] at h
      have hm0 : m = 0 := by omega
      subst hm0
      rw [hneg0]
      simp only [IntType.ofU64]
      simp [hs, Nat.le_zero, hppos.ne.symm]
  | true =>
      rw [hs] at h
      rw [if_pos rfl] at h
      rcases Nat.eq_zero_or_pos m with hm0 | hmpos
      · subst hm0
        rw [hneg0]
        simp only [IntType.ofU64]
        simp [hs, Nat.le_zero, hppos.ne.symm]
      · have hm64 : m < 2 ^ 64 := by
          have : (2:ℕ) ^ 63 < 2 ^ 64 := by norm_num
          omega
        have hneg : neg64 m = 2 ^ 64 - m := by
          unfold neg64 W
          rw [Nat.mod_eq_of_lt hm64, Nat.mod_eq_of_lt (by omega)]
        rw [hneg]
        simp only [IntType.ofU64]
        have hble : (2:ℕ) ^ T.bits ≤ 2 ^ 64 := Nat.pow_le_pow_right (by norm_num) hb
        have hdvd : (2:ℕ) ^ T.bits ∣ 2 ^ 64 - 2 ^ T.bits :=
          Nat.dvd_sub' (pow_dvd_pow 2 hb) dvd_rfl
        have hmb : m ≤ 2 ^ T.bits := by omega
        have hrw : 2 ^ 64 - m = (2 ^ 64 - 2 ^ T.bits) + (2 ^ T.bits - m) := by omega
        have hmod0 : (2 ^ 64 - 2 ^ T.bits) % 2 ^ T.bits = 0 :=
          Nat.mod_eq_zero_of_dvd hdvd
        have hmodval : (2 ^ 64 - m) % 2 ^ T.bits = 2 ^ T.bits - m := by
          rw [hrw, Nat.add_mod, hmod0, Nat.zero_add, Nat.mod_mod_of_dvd _ dvd_rfl,
            Nat.mod_eq_of_lt (by omega)]
        rw [hmodval, if_pos ⟨hs, by omega⟩]
        have hcastb : ((2 ^ T.bits : ℕ) : ℤ) = (2:ℤ) ^ T.bits := by
          push_cast
          ring
        have hsub : ((2 ^ T.bits - m : ℕ) : ℤ) = ((2 ^ T.bits : ℕ) : ℤ) - (m : ℤ) := by
          omega
        rw [hsub, hcastb]
        ring

/-- Round-half-to-even of a nonnegative rational is nonnegative. -/
theorem rhe_nonneg {x : ℚ} (h : 0 ≤ x) : 0 ≤ rhe x := by
  have hf : 0 ≤ ⌊x⌋ := Int.floor_nonneg.mpr h
  simp only [rhe]
  split_ifs <;> omega

/-- IEEE rounding of a nonnegative rational is nonnegative. -/
theorem FloatFmt.round_nonneg (F : FloatFmt) {q : ℚ} (h : 0 ≤ q) :
    0 ≤ F.round q := by
  unfold FloatFmt.round
  split_ifs with h0 hpos
  · exact le_refl 0
  · simp only [FloatFmt.roundPos]
    have hstep : (0:ℚ) < 2 ^ (qlog q + 1 - F.prec) := by positivity
    have hdiv : 0 ≤ q / 2 ^ (qlog q + 1 - F.prec) := le_of_lt (div_pos hpos hstep)
    exact mul_nonneg (Int.cast_nonneg.mpr (rhe_nonneg hdiv)) hstep.le
  · exact absurd (lt_of_le_of_ne h (Ne.symm h0)) hpos

/-! ## Claim theorems -/

/-- Claim C1: the claim states that `a OP= literal` applies the native
compound operator `OP=`.  The code evaluated at the failing input: with
`int a = 10`, the compound assignment `a -= 2_val` stores 12 — the macro
body of both headers applies the native `+=` for every instantiated
operator — whereas the subtraction the claim requires yields 8. -/
theorem claim_C1 :
    gsi.opAssignI .sub i32 10 (.ci ⟨2, false⟩) = .ok 12 ∧ (10 - 2 : ℤ) = 8 := by
  exact ⟨by with_unfolding_all rfl, by decide⟩

/-- Claim C2 counterexample: the expression `5 % 2.0_val` — an `int`
concrete operand with a real literal operand — is well formed, because the
`_ConvertTo<int>` wrapper of the operator mixin has a converting
constructor from `constreal`; it converts the literal to 2 and yields
`5 % 2 = 1`.  This refutes the assertion that there is no case in which
such an expression yields a value. -/
theorem claim_C2_counterexample :
    gsi.opBinRI .mod i32 5 (.cr ⟨.fin 2⟩) = .ok 1 := by
  with_unfolding_all rfl

/-- Claim C2 (amended): the modulo and bitwise operators are provided only
when the concrete operand is integral, but they accept literal operands of
both kinds: a real literal operand undergoes the checked conversion to the
integral type of the concrete operand, after which the native operator is
applied — the same computation as for an integer literal converting to the
same value. -/
theorem claim_C2_amended (op : Op8) (T : IntType) (a : ℤ) (x : constreal)
    (v : ℤ) (h : gsi.convertRealToIntegral T x = .ok v) :
    gsi.opBinRI op T a (.cr x) = T.natBin op a v
    ∧ ∀ y : constinteger, gsi.convertIntToIntegral T y = .ok v →
        gsi.opBinRI op T a (.cr x) = gsi.opBinRI op T a (.ci y) := by
  constructor
  · simp only [gsi.opBinRI, gsi.convertToI]
    rw [h]
    rfl
  · intro y hy
    simp only [gsi.opBinRI, gsi.convertToI]
    rw [h, hy]

/-- Witness for the amended claim C2 at `int`, `a = 5`, real literal `2.0`:
the conversion produces 2 and the modulo expression evaluates through the
native operator. -/
theorem claim_C2_witness :
    gsi.convertRealToIntegral i32 ⟨.fin 2⟩ = .ok 2
    ∧ gsi.opBinRI .mod i32 5 (.cr ⟨.fin 2⟩) = i32.natBin .mod 5 2 := by
  have hconv : gsi.convertRealToIntegral i32 ⟨.fin 2⟩ = .ok 2 := by
    with_unfolding_all rfl
  exact ⟨hconv, (claim_C2_amended .mod i32 5 ⟨.fin 2⟩ 2 hconv).1⟩

/-- Claim C4: conversion of an integer literal to an integral type fails
with the value-not-preserved error exactly when (negative and the magnitude
exceeds the unsigned negation of the lowest value) or (nonnegative and the
magnitude exceeds the maximum), and otherwise returns the signed value; in
particular magnitude `0x8000` without sign fails for a 16-bit signed type
while `-0x8000` succeeds and yields the minimum value of that type. -/
theorem claim_C4 :
    (∀ (T : IntType) (m : ℕ) (s : Bool),
      gsi.convertIntToIntegral T ⟨m, s⟩ =
        if (s = true ∧ T.negLowU64 < m) ∨ (s = false ∧ T.max < (m : ℤ))
        then .err else .ok (if s then -(m : ℤ) else (m : ℤ)))
    ∧ gsi.convertIntToIntegral i16 ⟨0x8000, false⟩ = .err
    ∧ gsi.convertIntToIntegral i16 ⟨0x8000, true⟩ = .ok (-32768)
    ∧ i16.lowest = -32768 := by
  refine ⟨fun T m s => ?_, by decide, by decide, by decide⟩
  unfold gsi.convertIntToIntegral
  cases s with
  | false =>
      by_cases hM : T.max < (m : ℤ)
      · simp [hM]
      · simp [hM, T.ofU64_of_le_max m (not_lt.mp hM)]
  | true =>
      by_cases hM : T.negLowU64 < m
      · simp [hM]
      · simp [hM, T.ofU64_neg64 m (not_lt.mp hM)]

/-- Claim C7: unary plus is the identity on both literal types, and double
negation restores the original literal exactly — the magnitude and the sign
flag of an integer literal, the stored value of a real literal — so the
result is equal to the original in every comparison. -/
theorem claim_C7 :
    (∀ v : constinteger, gsi.cintNeg (gsi.cintNeg v) = v ∧ gsi.cintPlus v = v)
    ∧ ∀ r : constreal, gsi.crealNeg (gsi.crealNeg r) = r ∧ gsi.crealPlus r = r := by
  constructor
  · intro v
    refine ⟨?_, rfl⟩
    simp [gsi.cintNeg]
  · intro r
    refine ⟨?_, rfl⟩
    rcases r with ⟨v⟩
    rcases v with q | _ | _ | _ <;> simp [gsi.crealNeg, ExtFloat.neg]

/-- Claim C8: unary negation of an integer literal only flips the sign flag
and never fails; negating a zero magnitude records the sign flag yet the
resulting literal converts successfully to every integral and every
floating-point type, yielding zero. -/
theorem claim_C8 :
    (∀ v : constinteger, gsi.cintNeg v = ⟨v.value, !v.negative⟩)
    ∧ (∀ T : IntType, gsi.convertIntToIntegral T ⟨0, true⟩ = .ok 0)
    ∧ ∀ F : FloatFmt, gsi.convertIntToFloat F ⟨0, true⟩ = .ok (.fin 0) := by
  refine ⟨fun v => rfl, fun T => ?_, fun F => ?_⟩
  · unfold gsi.convertIntToIntegral
    have h0 : T.ofU64 (neg64 0) = 0 := by
      have := T.ofU64_neg64 0 (by omega)
      simpa using this
    simp [h0]
  · unfold gsi.convertIntToFloat
    norm_num [FloatFmt.round, ztrunc, W]

/-- Claim C9: the gsi and vir copies of the library are extensionally
equal: every construction, unary operation, checked conversion and
binary, comparison or compound-assignment operator of the two namespaces
produces the same result on the same inputs. -/
theorem claim_C9 :
    gsi.cintNeg = vir.cintNeg ∧ gsi.cintPlus = vir.cintPlus
    ∧ gsi.udlInt = vir.udlInt ∧ gsi.valU = vir.valU ∧ gsi.valS = vir.valS
    ∧ gsi.crealNeg = vir.crealNeg ∧ gsi.crealPlus = vir.crealPlus
    ∧ gsi.udlReal = vir.udlReal ∧ gsi.valR = vir.valR
    ∧ gsi.convertIntToIntegral = vir.convertIntToIntegral
    ∧ gsi.convertIntToFloat = vir.convertIntToFloat
    ∧ gsi.convertRealToIntegral = vir.convertRealToIntegral
    ∧ gsi.convertRealToFloat = vir.convertRealToFloat
    ∧ gsi.convertToI = vir.convertToI ∧ gsi.convertToF = vir.convertToF
    ∧ gsi.opAssignI = vir.opAssignI ∧ gsi.opBinRI = vir.opBinRI
    ∧ gsi.opBinLI = vir.opBinLI ∧ gsi.opAssignF = vir.opAssignF
    ∧ gsi.opBinRF = vir.opBinRF ∧ gsi.opBinLF = vir.opBinLF
    ∧ gsi.opCmpRI = vir.opCmpRI ∧ gsi.opCmpLI = vir.opCmpLI
    ∧ gsi.opCmpRF = vir.opCmpRF ∧ gsi.opCmpLF = vir.opCmpLF := by
  refine ⟨rfl, rfl, rfl, rfl, rfl, rfl, rfl, rfl, rfl, ?_, ?_, ?_, ?_,
    ?_, ?_, rfl, rfl, rfl, rfl, rfl, rfl, rfl, rfl, rfl, rfl⟩
  · funext T x
    unfold gsi.convertIntToIntegral vir.convertIntToIntegral
    rfl
  · funext F x
    unfold gsi.convertIntToFloat vir.convertIntToFloat
    rfl
  · funext T x
    unfold gsi.convertRealToIntegral vir.convertRealToIntegral
    rfl
  · funext F x
    unfold gsi.convertRealToFloat vir.convertRealToFloat
    rfl
  · funext T b
    unfold gsi.convertToI vir.convertToI
    cases b <;> rfl
  · funext F b
    unfold gsi.convertToF vir.convertToF
    cases b <;> rfl

/-- Claim C3 counterexample: the literal construction from a long double
value is defined for every value, including NaN (it stores the value
verbatim and never fails), but the round trip then fails: converting the
NaN literal back to the extended type throws the value-not-preserved error
instead of succeeding with the original value. -/
theorem claim_C3_counterexample :
    gsi.convertRealToFloat ld80 (gsi.valR .nan) = .err := rfl

/-- Claim C3 (amended): the round-trip law holds for every integral value
and every finite floating value: for every unsigned integral type and every
value of it, for every signed integral type and every value of it including
the type minimum (the sign/magnitude split negates the minimum without
overflow), and for every floating format and every finite value stored
exactly in the extended format.  For non-finite floating values the
construction still succeeds but the conversion back fails. -/
theorem claim_C3_amended :
    (∀ (T : IntType) (n : ℕ), T.signed = false → (n : ℤ) ≤ T.max →
      gsi.convertIntToIntegral T (gsi.valU n) = .ok n)
    ∧ (∀ (T : IntType) (z : ℤ), T.signed = true → T.lowest ≤ z → z ≤ T.max →
      gsi.convertIntToIntegral T (gsi.valS z) = .ok z)
    ∧ ∀ (F : FloatFmt) (q : ℚ), F.round q = q → ld80.round q = q →
      -F.maxVal ≤ q → q ≤ F.maxVal →
      gsi.convertRealToFloat F (gsi.valR (.fin q)) = .ok (.fin q) := by
  refine ⟨fun T n hs hle => ?_, fun T z hs hlow hhigh => ?_,
    fun F q h1 h2 hlo hhi => ?_⟩
  · simp only [gsi.valU, gsi.convertIntToIntegral]
    rw [if_neg (by simp [not_lt.mpr hle])]
    simp [T.ofU64_of_le_max n hle]
  · rcases le_or_lt 0 z with hz | hz
    · have hrepr : gsi.valS z = ⟨z.toNat, false⟩ := by
        simp [gsi.valS, hz]
      have hle : ((z.toNat : ℕ) : ℤ) ≤ T.max := by
        rwa [Int.toNat_of_nonneg hz]
      rw [hrepr]
      simp only [gsi.convertIntToIntegral]
      rw [if_neg (by
        simp only [Bool.false_and, Bool.not_false, Bool.true_and, Bool.false_or,
          decide_eq_true_eq]
        exact not_lt.mpr hle)]
      rw [if_neg (by simp), T.ofU64_of_le_max _ hle, Int.toNat_of_nonneg hz]
    · have hbits := T.le64
      have hlowval : T.lowest = -(2 ^ (T.bits - 1)) := by
        unfold IntType.lowest
        rw [if_pos hs]
      have hp63 : (2:ℤ) ^ (T.bits - 1) ≤ 2 ^ 63 :=
        pow_le_pow_right₀ (by norm_num) (by omega)
      have h63 : (2:ℤ) ^ 63 = 9223372036854775808 := by norm_num
      have hzlow : -9223372036854775808 ≤ z := by
        rw [hlowval] at hlow
        omega
      have hm : neg64 (toU64 z) = (-z).toNat := by
        unfold neg64 toU64 W
        have h1n : (2:ℕ) ^ 64 = 18446744073709551616 := by norm_num
        rw [h1n]
        omega
      have hrepr : gsi.valS z = ⟨(-z).toNat, true⟩ := by
        simp only [gsi.valS]
        rw [if_neg (by omega), hm]
      have hcast : ((2 ^ (T.bits - 1) : ℕ) : ℤ) = (2:ℤ) ^ (T.bits - 1) := by
        push_cast
        ring
      have hmle : (-z).toNat ≤ T.negLowU64 := by
        rw [T.negLowU64_eq, if_pos hs]
        rw [hlowval] at hlow
        omega
      rw [hrepr]
      simp only [gsi.convertIntToIntegral]
      rw [if_neg (by simp [not_lt.mpr hmle])]
      rw [if_pos trivial, T.ofU64_neg64 _ hmle]
      have : (((-z).toNat : ℕ) : ℤ) = -z := Int.toNat_of_nonneg (by omega)
      rw [this]
      simp
  · simp only [gsi.valR, gsi.convertRealToFloat]
    rw [if_neg (not_or.mpr ⟨not_lt.mpr hhi, not_lt.mpr hlo⟩)]
    rw [h1, if_neg (not_not_intro h2)]

/-- Witness for the amended claim C3: round trips at the maximum unsigned
16-bit value, at the minimum of the 16-bit signed type, and at the float
value one half. -/
theorem claim_C3_witness :
    gsi.convertIntToIntegral u16 (gsi.valU 65535) = .ok 65535
    ∧ gsi.convertIntToIntegral i16 (gsi.valS (-32768)) = .ok (-32768)
    ∧ gsi.convertRealToFloat f32 (gsi.valR (.fin (1/2))) = .ok (.fin (1/2)) := by
  refine ⟨claim_C3_amended.1 u16 65535 rfl (by decide),
    claim_C3_amended.2.1 i16 (-32768) rfl (by decide) (by decide),
    claim_C3_amended.2.2 f32 (1/2) ?_ ?_ ?_ ?_⟩
  · with_unfolding_all rfl
  · with_unfolding_all rfl
  · with_unfolding_all decide
  · with_unfolding_all decide

/-- Claim C5 counterexample: the claim quantifies over every arithmetic
target type, but converting a real literal holding NaN to the 16-bit signed
integral type is undefined behaviour — the two range comparisons are false
for NaN and `static_cast` of NaN to an integral type is UB, a hard
constant-evaluation error — so the conversion does not fail with the
value-not-preserved error even though NaN lies outside every interval. -/
theorem claim_C5_counterexample :
    gsi.convertRealToIntegral i16 ⟨.nan⟩ = .ub
    ∧ gsi.convertRealToIntegral i16 ⟨.nan⟩ ≠ .err := by
  exact ⟨rfl, by simp [gsi.convertRealToIntegral]⟩

/-- Claim C5 (amended): for every floating target the conversion of a real
literal fails with the value-not-preserved error exactly when the stored
value lies outside the finite range of the target or the round trip through
the target is not exact, and otherwise returns the cast value; the same
characterisation holds for integral targets for every stored value other
than NaN — converting NaN to an integral type is undefined behaviour (a
hard constant-evaluation error), not the value-not-preserved error.  The
boundary scenario holds: real literal 0.1 fails for the 32-bit floating
type, real literal 0.5 succeeds. -/
theorem claim_C5_amended :
    (∀ (F : FloatFmt) (q : ℚ),
      (gsi.convertRealToFloat F ⟨.fin q⟩ = .err ↔
        ¬(-F.maxVal ≤ q ∧ q ≤ F.maxVal) ∨ ld80.round (F.round q) ≠ q)
      ∧ (gsi.convertRealToFloat F ⟨.fin q⟩ ≠ .err →
        gsi.convertRealToFloat F ⟨.fin q⟩ = .ok (.fin (F.round q))))
    ∧ (∀ F : FloatFmt, gsi.convertRealToFloat F ⟨.posInf⟩ = .err
        ∧ gsi.convertRealToFloat F ⟨.negInf⟩ = .err
        ∧ gsi.convertRealToFloat F ⟨.nan⟩ = .err)
    ∧ (∀ (T : IntType) (q : ℚ),
      (gsi.convertRealToIntegral T ⟨.fin q⟩ = .err ↔
        ¬((T.lowest : ℚ) ≤ q ∧ q ≤ (T.max : ℚ)) ∨ ld80.round ((ztrunc q : ℤ) : ℚ) ≠ q)
      ∧ (gsi.convertRealToIntegral T ⟨.fin q⟩ ≠ .err →
        gsi.convertRealToIntegral T ⟨.fin q⟩ = .ok (ztrunc q)))
    ∧ (∀ T : IntType, gsi.convertRealToIntegral T ⟨.posInf⟩ = .err
        ∧ gsi.convertRealToIntegral T ⟨.negInf⟩ = .err
        ∧ gsi.convertRealToIntegral T ⟨.nan⟩ = .ub)
    ∧ gsi.convertRealToFloat f32 ⟨.fin (ld80.round (1/10))⟩ = .err
    ∧ gsi.convertRealToFloat f32 ⟨.fin (1/2)⟩ = .ok (.fin (1/2)) := by
  refine ⟨fun F q => ?_, fun F => ⟨rfl, rfl, rfl⟩, fun T q => ?_,
    fun T => ⟨rfl, rfl, rfl⟩, by with_unfolding_all rfl, by with_unfolding_all rfl⟩
  · simp only [gsi.convertRealToFloat]
    by_cases hrange : F.maxVal < q ∨ q < -F.maxVal
    · rw [if_pos hrange]
      refine ⟨⟨fun _ => Or.inl fun ⟨hlo, hhi⟩ => ?_, fun _ => rfl⟩,
        fun hne => absurd rfl hne⟩
      rcases hrange with h | h
      · exact absurd hhi (not_le.mpr h)
      · exact absurd hlo (not_le.mpr h)
    · rw [if_neg hrange]
      push_neg at hrange
      by_cases hne : ld80.round (F.round q) ≠ q
      · rw [if_pos hne]
        exact ⟨⟨fun _ => Or.inr hne, fun _ => rfl⟩, fun hk => absurd rfl hk⟩
      · rw [if_neg hne]
        refine ⟨⟨fun hok => absurd hok (by simp), ?_⟩, fun _ => rfl⟩
        rintro (hout | hne2)
        · exact absurd ⟨hrange.2, hrange.1⟩ hout
        · exact absurd hne2 hne
  · simp only [gsi.convertRealToIntegral]
    by_cases hrange : (T.max : ℚ) < q ∨ q < (T.lowest : ℚ)
    · rw [if_pos hrange]
      refine ⟨⟨fun _ => Or.inl fun ⟨hlo, hhi⟩ => ?_, fun _ => rfl⟩,
        fun hne => absurd rfl hne⟩
      rcases hrange with h | h
      · exact absurd hhi (not_le.mpr h)
      · exact absurd hlo (not_le.mpr h)
    · rw [if_neg hrange]
      push_neg at hrange
      by_cases hne : ld80.round ((ztrunc q : ℤ) : ℚ) ≠ q
      · rw [if_pos hne]
        exact ⟨⟨fun _ => Or.inr hne, fun _ => rfl⟩, fun hk => absurd rfl hk⟩
      · rw [if_neg hne]
        refine ⟨⟨fun hok => absurd hok (by simp), ?_⟩, fun _ => rfl⟩
        rintro (hout | hne2)
        · exact absurd ⟨hrange.2, hrange.1⟩ hout
        · exact absurd hne2 hne

/-- Witness for the amended claim C5: the float round trip at one half
succeeds via the non-error clause, and the conversion of five halves to
`int` fails via the exactness clause of the characterisation. -/
theorem claim_C5_witness :
    gsi.convertRealToFloat f32 ⟨.fin (1/2)⟩ = .ok (.fin (f32.round (1/2)))
    ∧ gsi.convertRealToIntegral i32 ⟨.fin (5/2)⟩ = .err := by
  constructor
  · exact (claim_C5_amended.1 f32 (1/2)).2 (by with_unfolding_all decide)
  · exact (claim_C5_amended.2.2.1 i32 (5/2)).1.mpr (Or.inr (by with_unfolding_all decide))

/-- Claim C6 counterexample: the magnitude `2 ^ 64 - 1` cast to `float`
rounds up to `2 ^ 64`; converting that candidate back to
`unsigned long long` is undefined behaviour — a hard constant-evaluation
error, not the catchable value-not-preserved exception — so the conversion
has a third outcome besides success and the error, refuting totality with
exactly two outcomes. -/
theorem claim_C6_counterexample :
    gsi.convertIntToFloat f32 ⟨18446744073709551615, false⟩ = .ub := by
  with_unfolding_all rfl

/-- Claim C6 (amended): conversion of an integer literal to a floating
format has three outcomes.  With candidate `c = cast<F>(magnitude)`: when
the truncated candidate stays below `2 ^ 64`, the conversion returns the
sign-applied candidate if the back-conversion equals the magnitude and
fails with the value-not-preserved error otherwise; when the candidate
reaches `2 ^ 64` the back-cast is undefined behaviour (a hard
constant-evaluation error), not the value-not-preserved error. -/
theorem claim_C6_amended (F : FloatFmt) (m : ℕ) (s : Bool) (hm : m < W) :
    (ztrunc (F.round (m : ℚ)) < (W : ℤ) ∧ ztrunc (F.round (m : ℚ)) = (m : ℤ) →
      gsi.convertIntToFloat F ⟨m, s⟩ =
        .ok (.fin (if s then -(F.round (m : ℚ)) else F.round (m : ℚ))))
    ∧ (ztrunc (F.round (m : ℚ)) < (W : ℤ) ∧ ztrunc (F.round (m : ℚ)) ≠ (m : ℤ) →
      gsi.convertIntToFloat F ⟨m, s⟩ = .err)
    ∧ ((W : ℤ) ≤ ztrunc (F.round (m : ℚ)) →
      gsi.convertIntToFloat F ⟨m, s⟩ = .ub) := by
  have hc : 0 ≤ F.round ((m : ℕ) : ℚ) := F.round_nonneg (by positivity)
  have ht : 0 ≤ ztrunc (F.round (m : ℚ)) := by
    unfold ztrunc
    rw [if_neg (not_lt.mpr hc)]
    exact Int.floor_nonneg.mpr hc
  refine ⟨fun ⟨h1, h2⟩ => ?_, fun ⟨h1, h2⟩ => ?_, fun h1 => ?_⟩
  · simp only [gsi.convertIntToFloat]
    rw [if_neg (not_or.mpr ⟨not_lt.mpr ht, not_le.mpr h1⟩), if_neg (not_not_intro h2)]
  · simp only [gsi.convertIntToFloat]
    rw [if_neg (not_or.mpr ⟨not_lt.mpr ht, not_le.mpr h1⟩), if_pos h2]
  · simp only [gsi.convertIntToFloat]
    rw [if_pos (Or.inr h1)]

/-- Witness for the amended claim C6: at magnitude `2 ^ 24 + 1` and target
`float` the candidate truncates to `2 ^ 24`, which differs from the
magnitude, and the conversion fails with the value-not-preserved error. -/
theorem claim_C6_witness :
    gsi.convertIntToFloat f32 ⟨16777217, false⟩ = .err := by
  exact (claim_C6_amended f32 16777217 false (by norm_num [W])).2.1
    ⟨by with_unfolding_all decide, by with_unfolding_all decide⟩

/-- Claim C10 counterexample: the claim asserts that the NaN literal fails
with the value-not-preserved error for every arithmetic type, but for the
integral target `int` the conversion is undefined behaviour — the NaN range
comparisons are false and `static_cast` of NaN to an integral type is UB, a
hard constant-evaluation error — not the catchable error. -/
theorem claim_C10_counterexample :
    gsi.convertRealToIntegral i32 ⟨.nan⟩ ≠ .err := by
  simp [gsi.convertRealToIntegral]

/-- Claim C10 (amended): a real literal holding NaN is accepted by
construction, which never fails; its checked conversion to every
floating-point format — including the extended-precision format itself —
fails with the value-not-preserved error, because the exact-equality round
trip is false for NaN; but its conversion to every integral type is
undefined behaviour (a hard constant-evaluation error), not the
value-not-preserved error. -/
theorem claim_C10_amended :
    gsi.valR .nan = ⟨.nan⟩
    ∧ (∀ F : FloatFmt, gsi.convertRealToFloat F (gsi.valR .nan) = .err)
    ∧ ∀ T : IntType, gsi.convertRealToIntegral T (gsi.valR .nan) = .ub := by
  exact ⟨rfl, fun F => rfl, fun T => rfl⟩

end ValLib
